import Mathlib

/-!
Verification of the collision-detection core of the terrain-physics playground.

The development shallowly embeds the three source modules the claims are about:

* the pure vector/geometry helpers (`src/physics/math.ts`): `projectOnto`,
  `reflect`, `triangleNormal`, `triangleCentroid`, `pointInTriangle`;
* the terrain mesh generator (`Terrain.tsx`): `pseudoRandom`,
  `generateTerrainHeight`, `buildTerrainFaces`;
* the per-frame ball physics (`Ball.tsx`): `getGroundInfo`, the keyboard-mode
  simulation step (input, gravity, Euler integration, out-of-bounds recovery,
  ground snap, throttled vector notifications) and the legacy launch-mode
  collision scan.

Floating-point numbers of the source are modelled as real numbers; machine
floats aside, every definition mirrors the corresponding source function
statement by statement.  Wall-clock time (`performance.now()`) is passed to the
step as an explicit `now` argument, and the React state/refs of the component
are gathered into an explicit `BallState` record.  Callback invocations
(`onVectorUpdate`, `onHighlightFace`) are modelled as optional outputs of the
step.
-/

noncomputable section

open scoped Classical

namespace CDS

/-- Three-component vector, modelling `THREE.Vector3` with real arithmetic. -/
structure Vec3 where
  x : ℝ
  y : ℝ
  z : ℝ

def vzero : Vec3 := ⟨0, 0, 0⟩

def vadd (u v : Vec3) : Vec3 := ⟨u.x + v.x, u.y + v.y, u.z + v.z⟩

def vsub (u v : Vec3) : Vec3 := ⟨u.x - v.x, u.y - v.y, u.z - v.z⟩

def smul (c : ℝ) (v : Vec3) : Vec3 := ⟨c * v.x, c * v.y, c * v.z⟩

def dot (u v : Vec3) : ℝ := u.x * v.x + u.y * v.y + u.z * v.z

/-- Cross product, component order as in `THREE.Vector3.cross`. -/
def cross (u v : Vec3) : Vec3 :=
  ⟨u.y * v.z - u.z * v.y, u.z * v.x - u.x * v.z, u.x * v.y - u.y * v.x⟩

def lengthSq (v : Vec3) : ℝ := dot v v

def length (v : Vec3) : ℝ := Real.sqrt (lengthSq v)

def distanceToSquared (u v : Vec3) : ℝ := lengthSq (vsub u v)

/-- `THREE.Vector3.normalize`: divide by the length, or by 1 when the length
is zero (`divideScalar(this.length() || 1)`). -/
def normalize (v : Vec3) : Vec3 :=
  smul (1 / (if length v = 0 then 1 else length v)) v

/-- Project vector `v` onto `n`; returns the zero vector when `n` has zero
squared length (math.ts, `projectOnto`). -/
def projectOnto (v n : Vec3) : Vec3 :=
  if lengthSq n = 0 then vzero else smul (dot v n / lengthSq n) n

/-- Reflect `v` across `n`, normalising `n` internally (math.ts, `reflect`). -/
def reflect (v n : Vec3) : Vec3 :=
  vsub v (smul (2 * dot v (normalize n)) (normalize n))

/-- Unit normal of a triangle via the cross product of its edges
(math.ts, `triangleNormal`). -/
def triangleNormal (a b c : Vec3) : Vec3 :=
  normalize (cross (vsub b a) (vsub c a))

def triangleCentroid (a b c : Vec3) : Vec3 :=
  ⟨(a.x + b.x + c.x) / 3, (a.y + b.y + c.y) / 3, (a.z + b.z + c.z) / 3⟩

/-- Barycentric inside-test with 1e-6 tolerance; a degenerate triangle
(zero denominator) yields `False` (math.ts, `pointInTriangle`). -/
def pointInTriangle (p a b c : Vec3) : Prop :=
  let v0 := vsub c a
  let v1 := vsub b a
  let v2 := vsub p a
  let dot00 := dot v0 v0
  let dot01 := dot v0 v1
  let dot02 := dot v0 v2
  let dot11 := dot v1 v1
  let dot12 := dot v1 v2
  let denom := dot00 * dot11 - dot01 * dot01
  denom ≠ 0 ∧
    (dot11 * dot02 - dot01 * dot12) / denom ≥ -1e-6 ∧
    (dot00 * dot12 - dot01 * dot02) / denom ≥ -1e-6 ∧
    (dot11 * dot02 - dot01 * dot12) / denom +
      (dot00 * dot12 - dot01 * dot02) / denom ≤ 1 + 1e-6

/-- Terrain triangle with precomputed unit normal and centroid. -/
structure Face where
  id : ℕ
  a : Vec3
  b : Vec3
  c : Vec3
  normal : Vec3
  centroid : Vec3

/-- Result record of the ground query (`getGroundInfo` in Ball.tsx). -/
structure GroundInfo where
  y : ℝ
  normal : Vec3
  id : ℕ

/-- Height at which the purely vertical line through `(x, z)` meets the plane
of face `f`: the `y` computed inside the loop of `getGroundInfo`. -/
def heightAt (x z : ℝ) (f : Face) : ℝ :=
  f.a.y - (f.normal.x * (x - f.a.x) + f.normal.z * (z - f.a.z)) / f.normal.y

/-- One iteration of the `getGroundInfo` loop: skip near-vertical faces,
intersect the vertical line with the plane, test the footprint, keep the
highest hit so far. -/
def groundStep (x z : ℝ) (best : Option GroundInfo) (f : Face) : Option GroundInfo :=
  if |f.normal.y| < 1e-4 then best
  else if pointInTriangle ⟨x, heightAt x z f, z⟩ f.a f.b f.c then
    match best with
    | none => some ⟨heightAt x z f, f.normal, f.id⟩
    | some b => if heightAt x z f > b.y then some ⟨heightAt x z f, f.normal, f.id⟩ else some b
  else best

/-- Ground query of Ball.tsx: fold the loop body over the face list. -/
def getGroundInfo (x z : ℝ) (faces : List Face) : Option GroundInfo :=
  faces.foldl (groundStep x z) none

/-- A face qualifies for the ground query at `(x, z)` when its normal's
vertical component is at least `1e-4` in absolute value and the vertical line
through `(x, z)` meets its plane inside its footprint. -/
def qualifies (x z : ℝ) (f : Face) : Prop :=
  1e-4 ≤ |f.normal.y| ∧ pointInTriangle ⟨x, heightAt x z f, z⟩ f.a f.b f.c

/-- The ground-query record produced from a qualifying face. -/
def mkInfo (x z : ℝ) (f : Face) : GroundInfo := ⟨heightAt x z f, f.normal, f.id⟩

/-! ### Terrain mesh generator (Terrain.tsx) -/

inductive TerrainType
  | hills
  | smooth
  | valleys
  | rough

/-- Deterministic pseudo-random function replacing `Math.random()`
(Terrain.tsx, `pseudoRandom`). -/
def pseudoRandom (x y : ℝ) : ℝ :=
  let seed := Real.sin (x * 12.9898 + y * 78.233) * 43758.5453
  seed - (⌊seed⌋ : ℤ)

/-- Height sample at grid indices `(i, j)` (Terrain.tsx,
`generateTerrainHeight`); the default branch of the source switch is
unreachable for the four enumerated profiles. -/
def generateTerrainHeight (i j : ℝ) (t : TerrainType) (height : ℝ) : ℝ :=
  match t with
  | .smooth => 0
  | .hills =>
    let hill1 := Real.sin (i * 0.5) * Real.cos (j * 0.5) * 0.8
    let hill2 := Real.sin (i * 0.3) * Real.cos (j * 0.4) * 0.6
    (hill1 + hill2) * height * 0.5
  | .valleys =>
    let valley1 := Real.sin (i * 0.4) * Real.cos (j * 0.4) * 1.2
    let valley2 := Real.sin (i * 0.7) * Real.cos (j * 0.6) * 0.8
    (valley1 + valley2) * height * 0.8
  | .rough =>
    let noise1 := Real.sin (i * 0.8) * Real.cos (j * 0.8) * 0.4
    let noise2 := Real.sin (i * 1.3) * Real.cos (j * 0.9) * 0.3
    let noise3 := Real.sin (i * 2.1) * Real.cos (j * 1.8) * 0.15
    let deterministicNoise := (pseudoRandom i j - 0.5) * 0.3
    (noise1 + noise2 + noise3 + deterministicNoise) * height * 0.6

/-- Grid vertex `vertices[i][j]` of `buildTerrainFaces`. -/
def vert (size : ℝ) (divisions : ℤ) (height : ℝ) (t : TerrainType) (i j : ℕ) : Vec3 :=
  let step := size / (divisions : ℝ)
  ⟨-size / 2 + (i : ℝ) * step, generateTerrainHeight (i : ℝ) (j : ℝ) t height,
    -size / 2 + (j : ℝ) * step⟩

/-- Terrain generator (Terrain.tsx, `buildTerrainFaces`): row-major over grid
cells, two triangles per cell, ids assigned by the running counter — at cell
`(i, j)` the counter has already produced `2 * (i * divisions + j)` faces.
The source loops `for (let i = 0; i < divisions; i++)` run no iteration when
`divisions ≤ 0`, which `Int.toNat` reproduces. -/
def buildTerrainFaces (size : ℝ) (divisions : ℤ) (height : ℝ) (t : TerrainType) :
    List Face :=
  let n := divisions.toNat
  (List.range n).flatMap fun i =>
    (List.range n).flatMap fun j =>
      let a := vert size divisions height t i j
      let b := vert size divisions height t (i + 1) j
      let c := vert size divisions height t i (j + 1)
      let d := vert size divisions height t (i + 1) (j + 1)
      [{ id := 2 * (i * n + j), a := a, b := c, c := b,
         normal := triangleNormal a c b, centroid := triangleCentroid a c b },
       { id := 2 * (i * n + j) + 1, a := b, b := c, c := d,
         normal := triangleNormal b c d, centroid := triangleCentroid b c d }]

/-! ### Keyboard-mode simulation step (Ball.tsx, `useFrame`) -/

/-- Pressed-key snapshot read once per step. -/
structure KeyState where
  w : Bool
  a : Bool
  s : Bool
  d : Bool

/-- Payload of an `onVectorUpdate` notification. -/
structure VectorPayload where
  velocity : Vec3
  normal : Vec3
  projection : Vec3
  reflection : Vec3

def zeroPayload : VectorPayload := ⟨vzero, vzero, vzero, vzero⟩

/-- Cross-frame state of the ball component: mesh position, velocity ref,
tracked supporting-face id, last notification time, and the five arrow refs
rendered every frame in keyboard mode. -/
structure BallState where
  pos : Vec3
  vel : Vec3
  currentFaceId : Option ℕ
  lastVectorUpdate : ℝ
  contactRef : Vec3
  normalRef : Vec3
  incomingRef : Vec3
  projectionRef : Vec3
  reflectionRef : Vec3

/-- Observable outcome of one keyboard-mode step: the new state, the
`onVectorUpdate` payload when one was emitted, and the `onHighlightFace`
argument when that callback was invoked. -/
structure StepResult where
  state : BallState
  emitted : Option VectorPayload
  highlight : Option (Option ℕ)

def speed : ℝ := 5

def gravity : ℝ := -9.81

def terrainSize : ℝ := 10

def resetThreshold : ℝ := -5

/-- WASD input vector `((d?1:0)-(a?1:0), 0, (w?1:0)-(s?1:0))`. -/
def inputVec (k : KeyState) : Vec3 :=
  ⟨(if k.d then 1 else 0) - (if k.a then 1 else 0), 0,
    (if k.w then 1 else 0) - (if k.s then 1 else 0)⟩

/-- Horizontal velocity update: normalized input scaled by `speed` when a key
is held, multiplicative damping by 0.9 otherwise; `velocity.y` untouched. -/
def applyInput (k : KeyState) (v : Vec3) : Vec3 :=
  if lengthSq (inputVec k) > 0 then
    let iv := smul speed (normalize (inputVec k))
    ⟨iv.x, v.y, iv.z⟩
  else ⟨v.x * 0.9, v.y, v.z * 0.9⟩

/-- Gravity application: `velocity.y += gravity * delta`. -/
def applyGravity (delta : ℝ) (v : Vec3) : Vec3 := ⟨v.x, v.y + gravity * delta, v.z⟩

/-- Explicit Euler integration `position.addScaledVector(velocity, delta)`. -/
def integrate (delta : ℝ) (p v : Vec3) : Vec3 := vadd p (smul delta v)

/-- Velocity after input handling and gravity, with the clamped timestep. -/
def velAfter (k : KeyState) (delta : ℝ) (v : Vec3) : Vec3 :=
  applyGravity delta (applyInput k v)

/-- Position after input handling, gravity and integration. -/
def posAfter (k : KeyState) (delta : ℝ) (p v : Vec3) : Vec3 :=
  integrate delta p (velAfter k delta v)

/-- Out-of-bounds test on the integrated position. -/
def isOOB (p : Vec3) : Prop :=
  p.y < resetThreshold ∨ |p.x| > terrainSize * 0.6 ∨ |p.z| > terrainSize * 0.6

/-- Reset height used by the out-of-bounds branch: ground height plus radius
at the start coordinates, or the raw start height when ungrounded there. -/
def oobResetY (faces : List Face) (startPos : Vec3) (radius : ℝ) : ℝ :=
  match getGroundInfo startPos.x startPos.z faces with
  | some gi => gi.y + radius
  | none => startPos.y

/-- The no-ground branch of the step: clear face tracking and emit a zero
payload, throttled to one emission per 100 ms; the arrow refs are left
untouched by the source in this branch. -/
def noContactResult (now : ℝ) (p1 v2 : Vec3) (s : BallState) : StepResult :=
  let doEmit := now - s.lastVectorUpdate > 100
  { state := { s with
                 pos := p1
                 vel := v2
                 currentFaceId := none
                 lastVectorUpdate := if doEmit then now else s.lastVectorUpdate },
    emitted := if doEmit then some zeroPayload else none,
    highlight := if s.currentFaceId ≠ none then some none else none }

/-- One keyboard-mode simulation step (Ball.tsx, `useFrame`, keyboard branch):
clamp the timestep, apply input and gravity, integrate, run out-of-bounds
recovery, otherwise query the ground and resolve contact with a 50 ms
notification throttle. -/
def stepKeyboard (faces : List Face) (startPos : Vec3) (radius : ℝ)
    (k : KeyState) (dt now : ℝ) (s : BallState) : StepResult :=
  let delta := min dt (1 / 60)
  let v2 := velAfter k delta s.vel
  let p1 := posAfter k delta s.pos s.vel
  if isOOB p1 then
    { state := { s with
                   pos := ⟨startPos.x, oobResetY faces startPos radius, startPos.z⟩
                   vel := vzero
                   currentFaceId := none },
      emitted := some zeroPayload,
      highlight := some none }
  else
    match getGroundInfo p1.x p1.z faces with
    | some gi =>
      if p1.y ≤ gi.y + radius then
        let p2 : Vec3 := ⟨p1.x, gi.y + radius, p1.z⟩
        let v3 : Vec3 := ⟨v2.x, max 0 v2.y, v2.z⟩
        let horizontalVel : Vec3 := ⟨v3.x, 0, v3.z⟩
        let doEmit := now - s.lastVectorUpdate > 50
        { state := { pos := p2
                     vel := v3
                     currentFaceId := some gi.id
                     lastVectorUpdate := if doEmit then now else s.lastVectorUpdate
                     contactRef := ⟨p2.x, gi.y, p2.z⟩
                     normalRef := gi.normal
                     incomingRef := horizontalVel
                     projectionRef := projectOnto horizontalVel gi.normal
                     reflectionRef := reflect horizontalVel gi.normal },
          emitted := if doEmit then
              some ⟨horizontalVel, gi.normal, projectOnto horizontalVel gi.normal,
                reflect horizontalVel gi.normal⟩
            else none,
          highlight := if some gi.id ≠ s.currentFaceId then some (some gi.id) else none }
      else noContactResult now p1 v2 s
    | none => noContactResult now p1 v2 s

/-! ### Legacy launch-mode collision scan (Ball.tsx, `useFrame`, lower half) -/

/-- Whether face `f` triggers a legacy-mode bounce at position `p` with
velocity `v`: approaching the plane, within `radius` of it, and the projected
contact point inside the triangle. -/
def trigger (radius : ℝ) (p v : Vec3) (f : Face) : Prop :=
  dot v f.normal < 0 ∧ dot f.normal (vsub p f.a) ≤ radius ∧
    pointInTriangle (vsub p (smul (dot f.normal (vsub p f.a)) f.normal)) f.a f.b f.c

/-- The face loop of the legacy collision scan: `continue` past faces that
fail a test, resolve the first qualifying face and `break`.  Returns the new
position, the new velocity and the id of the resolved face, if any. -/
def legacyScan (radius : ℝ) (p v : Vec3) : List Face → Vec3 × Vec3 × Option ℕ
  | [] => (p, v, none)
  | f :: rest =>
    if ¬ dot v f.normal < 0 then legacyScan radius p v rest
    else
      let dist := dot f.normal (vsub p f.a)
      if dist > radius then legacyScan radius p v rest
      else if ¬ pointInTriangle (vsub p (smul dist f.normal)) f.a f.b f.c then
        legacyScan radius p v rest
      else
        let penetration := radius - dist
        let p2 := if penetration > 0 then vadd p (smul (penetration + 1e-3) f.normal) else p
        (p2, reflect v f.normal, some f.id)

/-- Legacy-mode collision phase: skip the scan entirely below the speed gate,
pre-filter by centroid distance when more than 100 faces, then run the loop. -/
def legacyCollide (radius : ℝ) (p v : Vec3) (faces : List Face) :
    Vec3 × Vec3 × Option ℕ :=
  if lengthSq v < 0.01 then (p, v, none)
  else
    let maxCheckDistance := radius + 2.0
    let nearby := if faces.length > 100 then
        faces.filter fun f => distanceToSquared f.centroid p < maxCheckDistance * maxCheckDistance
      else faces
    legacyScan radius p v nearby

/-! ### Ground-query correctness (claim C1) -/

lemma groundStep_of_not_qualifies {x z : ℝ} {f : Face} (h : ¬ qualifies x z f)
    (best : Option GroundInfo) : groundStep x z best f = best := by
  unfold groundStep
  by_cases h1 : |f.normal.y| < 1e-4
  · simp [h1]
  · have h2 : ¬ pointInTriangle ⟨x, heightAt x z f, z⟩ f.a f.b f.c := fun hp =>
      h ⟨not_lt.mp h1, hp⟩
    simp [h1, h2]

lemma groundStep_of_qualifies {x z : ℝ} {f : Face} (h : qualifies x z f)
    (best : Option GroundInfo) :
    ∃ r, groundStep x z best f = some r ∧ heightAt x z f ≤ r.y ∧
      (r = mkInfo x z f ∨ best = some r) ∧ ∀ b, best = some b → b.y ≤ r.y := by
  obtain ⟨h1, h2⟩ := h
  have h1n : ¬ |f.normal.y| < 1e-4 := not_lt.mpr h1
  cases best with
  | none =>
    refine ⟨mkInfo x z f, ?_, le_refl _, Or.inl rfl, by simp⟩
    simp [groundStep, h1n, h2, mkInfo]
  | some b =>
    by_cases h3 : heightAt x z f > b.y
    · refine ⟨mkInfo x z f, ?_, le_refl _, Or.inl rfl, ?_⟩
      · simp [groundStep, h1n, h2, h3, mkInfo]
      · intro b1 hb1
        obtain rfl : b = b1 := by injection hb1
        exact le_of_lt h3
    · refine ⟨b, ?_, not_lt.mp h3, Or.inr rfl, ?_⟩
      · simp [groundStep, h1n, h2, h3]
      · intro b1 hb1
        obtain rfl : b = b1 := by injection hb1
        exact le_refl _

lemma ground_foldl_none (x z : ℝ) (l : List Face) (best : Option GroundInfo) :
    List.foldl (groundStep x z) best l = none ↔
      best = none ∧ ∀ f ∈ l, ¬ qualifies x z f := by
  induction l generalizing best with
  | nil => simp
  | cons f l ih =>
    by_cases hq : qualifies x z f
    · obtain ⟨r, hr, -, -, -⟩ := groundStep_of_qualifies hq best
      rw [List.foldl_cons, hr, ih]
      constructor
      · rintro ⟨h1, -⟩
        exact absurd h1 (by simp)
      · rintro ⟨-, hall⟩
        exact absurd hq (hall f (by simp))
    · rw [List.foldl_cons, groundStep_of_not_qualifies hq, ih]
      constructor
      · rintro ⟨h1, h2⟩
        refine ⟨h1, fun g hg => ?_⟩
        rcases List.mem_cons.mp hg with rfl | hmem
        · exact hq
        · exact h2 g hmem
      · rintro ⟨h1, h2⟩
        exact ⟨h1, fun g hg => h2 g (List.mem_cons_of_mem f hg)⟩

lemma ground_foldl_some (x z : ℝ) (l : List Face) :
    ∀ (best : Option GroundInfo) (r : GroundInfo),
      List.foldl (groundStep x z) best l = some r →
        (best = some r ∨ ∃ f ∈ l, qualifies x z f ∧ r = mkInfo x z f) ∧
        (∀ f ∈ l, qualifies x z f → heightAt x z f ≤ r.y) ∧
        ∀ b, best = some b → b.y ≤ r.y := by
  induction l with
  | nil =>
    intro best r h
    rw [List.foldl_nil] at h
    refine ⟨Or.inl h, by simp, fun b hb => ?_⟩
    rw [h] at hb
    obtain rfl : r = b := by injection hb
    exact le_refl _
  | cons f l ih =>
    intro best r h
    rw [List.foldl_cons] at h
    by_cases hq : qualifies x z f
    · obtain ⟨r1, hr1, hge, horig, hmax⟩ := groundStep_of_qualifies hq best
      rw [hr1] at h
      obtain ⟨ih1, ih2, ih3⟩ := ih (some r1) r h
      have hr1y : r1.y ≤ r.y := ih3 r1 rfl
      refine ⟨?_, ?_, fun b hb => le_trans (hmax b hb) hr1y⟩
      · rcases ih1 with h1 | ⟨g, hg, hgq, hgr⟩
        · obtain rfl : r1 = r := by injection h1
          rcases horig with h2 | h2
          · exact Or.inr ⟨f, by simp, hq, h2⟩
          · exact Or.inl h2
        · exact Or.inr ⟨g, List.mem_cons_of_mem f hg, hgq, hgr⟩
      · intro g hg hgq
        rcases List.mem_cons.mp hg with rfl | hmem
        · exact le_trans hge hr1y
        · exact ih2 g hmem hgq
    · rw [groundStep_of_not_qualifies hq] at h
      obtain ⟨ih1, ih2, ih3⟩ := ih best r h
      refine ⟨?_, ?_, ih3⟩
      · rcases ih1 with h1 | ⟨g, hg, hgq, hgr⟩
        · exact Or.inl h1
        · exact Or.inr ⟨g, List.mem_cons_of_mem f hg, hgq, hgr⟩
      · intro g hg hgq
        rcases List.mem_cons.mp hg with rfl | hmem
        · exact absurd hgq hq
        · exact ih2 g hmem hgq

/-- C1 (amended): for every face list and horizontal position, the ground
query considers exactly those faces whose normal's vertical component is at
least `1e-4` in absolute value and whose footprint contains `(x, z)` at the
height where the vertical line through `(x, z)` meets the face's plane; it
returns the height, normal and id of a qualifying face of maximum height, and
none exactly when no face qualifies. -/
theorem C1_ground_query_topmost (faces : List Face) (x z : ℝ) :
    (getGroundInfo x z faces = none ↔ ∀ f ∈ faces, ¬ qualifies x z f) ∧
    ∀ r, getGroundInfo x z faces = some r →
      (∃ f ∈ faces, qualifies x z f ∧ r = mkInfo x z f) ∧
      ∀ f ∈ faces, qualifies x z f → heightAt x z f ≤ r.y := by
  constructor
  · rw [getGroundInfo, ground_foldl_none]
    simp
  · intro r h
    obtain ⟨h1, h2, -⟩ := ground_foldl_some x z faces none r h
    rcases h1 with h1 | h1
    · exact absurd h1 (by simp)
    · exact ⟨h1, h2⟩

/-- Horizontal triangle with vertices at the origin, `(4,0,0)` and `(0,0,4)`,
upward unit normal, used as a concrete query target. -/
def wFace : Face := ⟨0, ⟨0, 0, 0⟩, ⟨4, 0, 0⟩, ⟨0, 0, 4⟩, ⟨0, 1, 0⟩, ⟨4 / 3, 0, 4 / 3⟩⟩

/-- Witness for C1: at `(1, 1)` over `wFace` the query returns that face's
plane height, normal and id, and the maximality clause holds there. -/
theorem C1_witness :
    getGroundInfo 1 1 [wFace] = some (mkInfo 1 1 wFace) ∧
    ∀ f ∈ [wFace], qualifies 1 1 f → heightAt 1 1 f ≤ (mkInfo 1 1 wFace).y := by
  have hsome : getGroundInfo 1 1 [wFace] = some (mkInfo 1 1 wFace) := by
    norm_num [getGroundInfo, groundStep, wFace, heightAt, pointInTriangle, mkInfo, vsub, dot]
  exact ⟨hsome, ((C1_ground_query_topmost [wFace] 1 1).2 (mkInfo 1 1 wFace) hsome).2⟩

/-- Copy of `wFace` with the stored normal pointing straight down. -/
def cexFace : Face := ⟨7, ⟨0, 0, 0⟩, ⟨4, 0, 0⟩, ⟨0, 0, 4⟩, ⟨0, -1, 0⟩, ⟨4 / 3, 0, 4 / 3⟩⟩

/-- C1 counterexample to the literal claim: a face whose normal's vertical
component is `-1` — which does not exceed the epsilon `1e-4` — is still
considered and returned by the query, because the source compares the
absolute value `|n.y|` against the epsilon. -/
theorem C1_counterexample :
    cexFace.normal.y < 1e-4 ∧
    getGroundInfo 1 1 [cexFace] = some (mkInfo 1 1 cexFace) := by
  constructor
  · norm_num [cexFace]
  · norm_num [getGroundInfo, groundStep, cexFace, heightAt, pointInTriangle, mkInfo, vsub, dot]

/-! ### Keyboard-mode step properties (claims C2, C3, C7, C8, C10) -/

lemma applyInput_y (k : KeyState) (v : Vec3) : (applyInput k v).y = v.y := by
  unfold applyInput
  split <;> rfl

lemma velAfter_y (k : KeyState) (delta : ℝ) (v : Vec3) :
    (velAfter k delta v).y = v.y + gravity * delta := by
  simp [velAfter, applyGravity, applyInput_y]

/-- C2: when the out-of-bounds recovery does not trigger, the ground query at
the integrated horizontal position finds a face, and the integrated vertical
position is at or below `groundHeight + radius`, the step snaps `position.y`
to exactly `groundHeight + radius` and clamps the vertical velocity to the
non-negative part of its post-gravity value, preserving any upward part. -/
theorem C2_contact_snap (faces : List Face) (startPos : Vec3) (radius : ℝ)
    (k : KeyState) (dt now : ℝ) (s : BallState) (gi : GroundInfo)
    (hOOB : ¬ isOOB (posAfter k (min dt (1 / 60)) s.pos s.vel))
    (hg : getGroundInfo (posAfter k (min dt (1 / 60)) s.pos s.vel).x
      (posAfter k (min dt (1 / 60)) s.pos s.vel).z faces = some gi)
    (hle : (posAfter k (min dt (1 / 60)) s.pos s.vel).y ≤ gi.y + radius) :
    (stepKeyboard faces startPos radius k dt now s).state.pos.y = gi.y + radius ∧
    (stepKeyboard faces startPos radius k dt now s).state.vel.y =
      max 0 (velAfter k (min dt (1 / 60)) s.vel).y := by
  simp only [stepKeyboard]
  rw [if_neg hOOB, hg]
  simp only [if_pos hle]
  exact ⟨trivial, trivial⟩

/-- C10: the contact-resolution branch reassigns only the vertical components
of the body state; the horizontal position and velocity components keep
exactly the values produced by the integration. -/
theorem C10_contact_preserves_horizontal (faces : List Face) (startPos : Vec3)
    (radius : ℝ) (k : KeyState) (dt now : ℝ) (s : BallState) (gi : GroundInfo)
    (hOOB : ¬ isOOB (posAfter k (min dt (1 / 60)) s.pos s.vel))
    (hg : getGroundInfo (posAfter k (min dt (1 / 60)) s.pos s.vel).x
      (posAfter k (min dt (1 / 60)) s.pos s.vel).z faces = some gi)
    (hle : (posAfter k (min dt (1 / 60)) s.pos s.vel).y ≤ gi.y + radius) :
    (stepKeyboard faces startPos radius k dt now s).state.pos.x =
      (posAfter k (min dt (1 / 60)) s.pos s.vel).x ∧
    (stepKeyboard faces startPos radius k dt now s).state.pos.z =
      (posAfter k (min dt (1 / 60)) s.pos s.vel).z ∧
    (stepKeyboard faces startPos radius k dt now s).state.vel.x =
      (velAfter k (min dt (1 / 60)) s.vel).x ∧
    (stepKeyboard faces startPos radius k dt now s).state.vel.z =
      (velAfter k (min dt (1 / 60)) s.vel).z := by
  simp only [stepKeyboard]
  rw [if_neg hOOB, hg]
  simp only [if_pos hle]
  exact ⟨trivial, trivial, trivial, trivial⟩

/-- C3 (amended): for every `dt > 0`, starting from zero vertical velocity
with the body neither out of bounds nor in ground contact after integration,
one step leaves the vertical velocity at exactly `gravity * min dt (1/60)` —
the timestep is clamped to 1/60 s — and the gravity application leaves both
horizontal velocity components unchanged. -/
theorem C3_gravity_step (faces : List Face) (startPos : Vec3) (radius : ℝ)
    (k : KeyState) (dt now : ℝ) (s : BallState)
    (hdt : 0 < dt) (hvy : s.vel.y = 0)
    (hOOB : ¬ isOOB (posAfter k (min dt (1 / 60)) s.pos s.vel))
    (hnc : ∀ gi, getGroundInfo (posAfter k (min dt (1 / 60)) s.pos s.vel).x
      (posAfter k (min dt (1 / 60)) s.pos s.vel).z faces = some gi →
        gi.y + radius < (posAfter k (min dt (1 / 60)) s.pos s.vel).y) :
    (stepKeyboard faces startPos radius k dt now s).state.vel.y =
      gravity * min dt (1 / 60) ∧
    ∀ (delta : ℝ) (v : Vec3),
      (applyGravity delta v).x = v.x ∧ (applyGravity delta v).z = v.z := by
  refine ⟨?_, fun delta v => ⟨rfl, rfl⟩⟩
  simp only [stepKeyboard]
  rw [if_neg hOOB]
  cases hgi : getGroundInfo (posAfter k (min dt (1 / 60)) s.pos s.vel).x
      (posAfter k (min dt (1 / 60)) s.pos s.vel).z faces with
  | none =>
    simp only [noContactResult]
    rw [velAfter_y, hvy, zero_add]
  | some gi =>
    simp only [if_neg (not_le.mpr (hnc gi hgi)), noContactResult]
    rw [velAfter_y, hvy, zero_add]

/-- C7: whenever the integrated position is out of bounds, the step teleports
the body to the start coordinates at the ground height there (or the raw
start height when ungrounded there), zeroes the velocity, emits a cleared
zero-vector notification, clears the tracked face id, and performs no
collision check — every other state component is left untouched. -/
theorem C7_oob_recovery (faces : List Face) (startPos : Vec3) (radius : ℝ)
    (k : KeyState) (dt now : ℝ) (s : BallState)
    (hOOB : isOOB (posAfter k (min dt (1 / 60)) s.pos s.vel)) :
    stepKeyboard faces startPos radius k dt now s =
      { state := { s with
                     pos := ⟨startPos.x, oobResetY faces startPos radius, startPos.z⟩
                     vel := vzero
                     currentFaceId := none },
        emitted := some zeroPayload,
        highlight := some none } := by
  simp only [stepKeyboard]
  rw [if_pos hOOB]

/-- C8 (amended): in a no-contact step the tracked face id is cleared and the
physical state (position, velocity) is unaffected by the throttle, but the
internally displayed contact vectors are left holding their previous values —
they are not zeroed — and the external zero-vector clear notification is
emitted only when more than 100 ms have passed since the last notification. -/
theorem C8_no_contact_throttle (faces : List Face) (startPos : Vec3)
    (radius : ℝ) (k : KeyState) (dt now : ℝ) (s : BallState)
    (hOOB : ¬ isOOB (posAfter k (min dt (1 / 60)) s.pos s.vel))
    (hnc : ∀ gi, getGroundInfo (posAfter k (min dt (1 / 60)) s.pos s.vel).x
      (posAfter k (min dt (1 / 60)) s.pos s.vel).z faces = some gi →
        gi.y + radius < (posAfter k (min dt (1 / 60)) s.pos s.vel).y) :
    (stepKeyboard faces startPos radius k dt now s).state.currentFaceId = none ∧
    (stepKeyboard faces startPos radius k dt now s).state.contactRef = s.contactRef ∧
    (stepKeyboard faces startPos radius k dt now s).state.normalRef = s.normalRef ∧
    (stepKeyboard faces startPos radius k dt now s).state.incomingRef = s.incomingRef ∧
    (stepKeyboard faces startPos radius k dt now s).state.projectionRef = s.projectionRef ∧
    (stepKeyboard faces startPos radius k dt now s).state.reflectionRef = s.reflectionRef ∧
    (now - s.lastVectorUpdate > 100 →
      (stepKeyboard faces startPos radius k dt now s).emitted = some zeroPayload) ∧
    (¬ now - s.lastVectorUpdate > 100 →
      (stepKeyboard faces startPos radius k dt now s).emitted = none) ∧
    (stepKeyboard faces startPos radius k dt now s).state.pos =
      posAfter k (min dt (1 / 60)) s.pos s.vel ∧
    (stepKeyboard faces startPos radius k dt now s).state.vel =
      velAfter k (min dt (1 / 60)) s.vel := by
  have hstep : stepKeyboard faces startPos radius k dt now s =
      noContactResult now (posAfter k (min dt (1 / 60)) s.pos s.vel)
        (velAfter k (min dt (1 / 60)) s.vel) s := by
    simp only [stepKeyboard]
    rw [if_neg hOOB]
    cases hgi : getGroundInfo (posAfter k (min dt (1 / 60)) s.pos s.vel).x
        (posAfter k (min dt (1 / 60)) s.pos s.vel).z faces with
    | none => rfl
    | some gi => simp only [if_neg (not_le.mpr (hnc gi hgi))]
  rw [hstep]
  simp only [noContactResult]
  refine ⟨trivial, trivial, trivial, trivial, trivial, trivial, ?_, ?_, trivial, trivial⟩
  · intro h
    simp [h]
  · intro h
    simp [h]

/-! ### Concrete step scenarios -/

def k0 : KeyState := ⟨false, false, false, false⟩

/-- Start state resting slightly above `wFace` at `(1, 1)`. -/
def s2 : BallState := ⟨⟨1, 0.2, 1⟩, vzero, none, 0, vzero, vzero, vzero, vzero, vzero⟩

/-- Witness for C2: a concrete step over `wFace` that snaps to height
`0 + 0.25` and clamps the fallen vertical velocity up to zero. -/
theorem C2_witness :
    (stepKeyboard [wFace] ⟨0, 2, 0⟩ 0.25 k0 (1 / 60) 0 s2).state.pos.y =
      (mkInfo 1 1 wFace).y + 0.25 ∧
    (stepKeyboard [wFace] ⟨0, 2, 0⟩ 0.25 k0 (1 / 60) 0 s2).state.vel.y =
      max 0 (velAfter k0 (min (1 / 60 : ℝ) (1 / 60)) s2.vel).y ∧
    (mkInfo 1 1 wFace).y = 0 := by
  have hval : (mkInfo 1 1 wFace).y = 0 := by
    norm_num [mkInfo, heightAt, wFace]
  have hp : posAfter k0 (min (1 / 60 : ℝ) (1 / 60)) s2.pos s2.vel =
      ⟨1, 0.2 - 9.81 / 3600, 1⟩ := by
    norm_num [posAfter, velAfter, applyInput, applyGravity, integrate, inputVec,
      vadd, smul, lengthSq, dot, vzero, s2, k0, gravity, speed, min_self,
      Vec3.mk.injEq]
  have hOOB : ¬ isOOB (posAfter k0 (min (1 / 60 : ℝ) (1 / 60)) s2.pos s2.vel) := by
    rw [hp]
    norm_num [isOOB, terrainSize, resetThreshold]
  have hg : getGroundInfo (posAfter k0 (min (1 / 60 : ℝ) (1 / 60)) s2.pos s2.vel).x
      (posAfter k0 (min (1 / 60 : ℝ) (1 / 60)) s2.pos s2.vel).z [wFace] =
      some (mkInfo 1 1 wFace) := by
    rw [hp]
    norm_num [getGroundInfo, groundStep, wFace, heightAt, pointInTriangle, mkInfo, vsub, dot]
  have hle : (posAfter k0 (min (1 / 60 : ℝ) (1 / 60)) s2.pos s2.vel).y ≤
      (mkInfo 1 1 wFace).y + 0.25 := by
    rw [hp, hval]
    norm_num
  have h := C2_contact_snap [wFace] ⟨0, 2, 0⟩ 0.25 k0 (1 / 60) 0 s2
    (mkInfo 1 1 wFace) hOOB hg hle
  exact ⟨h.1, h.2, hval⟩

/-- Start state resting slightly above `wFace` at `(2, 1)`. -/
def s10 : BallState := ⟨⟨2, 0.2, 1⟩, vzero, none, 0, vzero, vzero, vzero, vzero, vzero⟩

/-- Witness for C10: a concrete contact step whose horizontal position and
velocity components equal the integrated ones. -/
theorem C10_witness :
    (stepKeyboard [wFace] ⟨0, 2, 0⟩ 0.25 k0 (1 / 60) 0 s10).state.pos.x =
      (posAfter k0 (min (1 / 60 : ℝ) (1 / 60)) s10.pos s10.vel).x ∧
    (stepKeyboard [wFace] ⟨0, 2, 0⟩ 0.25 k0 (1 / 60) 0 s10).state.pos.z =
      (posAfter k0 (min (1 / 60 : ℝ) (1 / 60)) s10.pos s10.vel).z ∧
    (stepKeyboard [wFace] ⟨0, 2, 0⟩ 0.25 k0 (1 / 60) 0 s10).state.vel.x =
      (velAfter k0 (min (1 / 60 : ℝ) (1 / 60)) s10.vel).x ∧
    (stepKeyboard [wFace] ⟨0, 2, 0⟩ 0.25 k0 (1 / 60) 0 s10).state.vel.z =
      (velAfter k0 (min (1 / 60 : ℝ) (1 / 60)) s10.vel).z := by
  have hp : posAfter k0 (min (1 / 60 : ℝ) (1 / 60)) s10.pos s10.vel =
      ⟨2, 0.2 - 9.81 / 3600, 1⟩ := by
    norm_num [posAfter, velAfter, applyInput, applyGravity, integrate, inputVec,
      vadd, smul, lengthSq, dot, vzero, s10, k0, gravity, speed, min_self,
      Vec3.mk.injEq]
  have hOOB : ¬ isOOB (posAfter k0 (min (1 / 60 : ℝ) (1 / 60)) s10.pos s10.vel) := by
    rw [hp]
    norm_num [isOOB, terrainSize, resetThreshold]
  have hg : getGroundInfo (posAfter k0 (min (1 / 60 : ℝ) (1 / 60)) s10.pos s10.vel).x
      (posAfter k0 (min (1 / 60 : ℝ) (1 / 60)) s10.pos s10.vel).z [wFace] =
      some (mkInfo 2 1 wFace) := by
    rw [hp]
    norm_num [getGroundInfo, groundStep, wFace, heightAt, pointInTriangle, mkInfo, vsub, dot]
  have hle : (posAfter k0 (min (1 / 60 : ℝ) (1 / 60)) s10.pos s10.vel).y ≤
      (mkInfo 2 1 wFace).y + 0.25 := by
    rw [hp]
    norm_num [mkInfo, heightAt, wFace]
  exact C10_contact_preserves_horizontal [wFace] ⟨0, 2, 0⟩ 0.25 k0 (1 / 60) 0 s10
    (mkInfo 2 1 wFace) hOOB hg hle

/-- Airborne start state high above the origin. -/
def s3 : BallState := ⟨⟨0, 2, 0⟩, vzero, none, 0, vzero, vzero, vzero, vzero, vzero⟩

/-- Witness for C3 (amended): with no terrain below and `dt = 1/100`, one
step produces vertical velocity `gravity * min (1/100) (1/60)`. -/
theorem C3_witness :
    (stepKeyboard [] ⟨0, 2, 0⟩ 0.25 k0 (1 / 100) 0 s3).state.vel.y =
      gravity * min (1 / 100 : ℝ) (1 / 60) ∧
    ∀ (delta : ℝ) (v : Vec3),
      (applyGravity delta v).x = v.x ∧ (applyGravity delta v).z = v.z := by
  have hOOB : ¬ isOOB (posAfter k0 (min (1 / 100 : ℝ) (1 / 60)) s3.pos s3.vel) := by
    norm_num [isOOB, posAfter, velAfter, applyInput, applyGravity, integrate,
      inputVec, vadd, smul, lengthSq, dot, vzero, s3, k0, gravity, speed,
      terrainSize, resetThreshold, min_def]
  have hnc : ∀ gi, getGroundInfo (posAfter k0 (min (1 / 100 : ℝ) (1 / 60)) s3.pos s3.vel).x
      (posAfter k0 (min (1 / 100 : ℝ) (1 / 60)) s3.pos s3.vel).z ([] : List Face) = some gi →
        gi.y + 0.25 < (posAfter k0 (min (1 / 100 : ℝ) (1 / 60)) s3.pos s3.vel).y := by
    intro gi h
    exact absurd h (by simp [getGroundInfo])
  exact C3_gravity_step [] ⟨0, 2, 0⟩ 0.25 k0 (1 / 100) 0 s3 (by norm_num) rfl hOOB hnc

/-- C3 counterexample to the literal claim: at `dt = 1`, the step clamps the
timestep to 1/60 s, so the resulting vertical velocity is `gravity * (1/60)`,
not `gravity * dt`. -/
theorem C3_counterexample :
    (0 : ℝ) < 1 ∧ s3.vel.y = 0 ∧
    (stepKeyboard [] ⟨0, 2, 0⟩ 0.25 k0 1 0 s3).state.vel.y = gravity * (1 / 60) ∧
    (stepKeyboard [] ⟨0, 2, 0⟩ 0.25 k0 1 0 s3).state.vel.y ≠ gravity * 1 := by
  refine ⟨by norm_num, rfl, ?_, ?_⟩ <;>
    norm_num [stepKeyboard, posAfter, velAfter, applyInput, applyGravity,
      integrate, inputVec, isOOB, getGroundInfo, noContactResult, vadd, smul,
      lengthSq, dot, vzero, s3, k0, gravity, speed, terrainSize,
      resetThreshold, min_def]

/-- Out-of-bounds start state: beyond the horizontal bound, with sentinel
values in the face tracking and arrow refs. -/
def s7 : BallState :=
  ⟨⟨7, 2, 0⟩, vzero, some 3, 42, ⟨1, 1, 1⟩, ⟨1, 1, 1⟩, ⟨1, 1, 1⟩, ⟨1, 1, 1⟩, ⟨1, 1, 1⟩⟩

/-- Witness for C7: a step from `x = 7 > 0.6 * 10` performs the full reset. -/
theorem C7_witness :
    stepKeyboard [wFace] ⟨0, 2, 0⟩ 0.25 k0 (1 / 60) 5 s7 =
      { state := { s7 with
                     pos := ⟨(0 : ℝ), oobResetY [wFace] ⟨0, 2, 0⟩ 0.25, 0⟩
                     vel := vzero
                     currentFaceId := none },
        emitted := some zeroPayload,
        highlight := some none } := by
  have hOOB : isOOB (posAfter k0 (min (1 / 60 : ℝ) (1 / 60)) s7.pos s7.vel) := by
    norm_num [isOOB, posAfter, velAfter, applyInput, applyGravity, integrate,
      inputVec, vadd, smul, lengthSq, dot, vzero, s7, k0, gravity, speed,
      terrainSize, resetThreshold, min_self]
  exact C7_oob_recovery [wFace] ⟨0, 2, 0⟩ 0.25 k0 (1 / 60) 5 s7 hOOB

/-- Airborne state whose arrow refs still hold non-zero vectors from an
earlier contact and whose last notification was 0 ms ago. -/
def s8 : BallState :=
  ⟨⟨0, 2, 0⟩, vzero, some 0, 0, ⟨1, 0, 1⟩, ⟨0, 1, 0⟩, ⟨5, 0, 0⟩, ⟨2, 0, 0⟩, ⟨3, 0, 0⟩⟩

/-- Witness for C8 (amended): applying the no-contact theorem at a concrete
airborne state. -/
theorem C8_witness :
    (stepKeyboard [] ⟨0, 2, 0⟩ 0.25 k0 (1 / 60) 0 s8).state.currentFaceId = none ∧
    (stepKeyboard [] ⟨0, 2, 0⟩ 0.25 k0 (1 / 60) 0 s8).state.contactRef = s8.contactRef ∧
    (stepKeyboard [] ⟨0, 2, 0⟩ 0.25 k0 (1 / 60) 0 s8).state.normalRef = s8.normalRef ∧
    (stepKeyboard [] ⟨0, 2, 0⟩ 0.25 k0 (1 / 60) 0 s8).state.incomingRef = s8.incomingRef ∧
    (stepKeyboard [] ⟨0, 2, 0⟩ 0.25 k0 (1 / 60) 0 s8).state.projectionRef = s8.projectionRef ∧
    (stepKeyboard [] ⟨0, 2, 0⟩ 0.25 k0 (1 / 60) 0 s8).state.reflectionRef = s8.reflectionRef ∧
    ((0 : ℝ) - s8.lastVectorUpdate > 100 →
      (stepKeyboard [] ⟨0, 2, 0⟩ 0.25 k0 (1 / 60) 0 s8).emitted = some zeroPayload) ∧
    (¬ (0 : ℝ) - s8.lastVectorUpdate > 100 →
      (stepKeyboard [] ⟨0, 2, 0⟩ 0.25 k0 (1 / 60) 0 s8).emitted = none) ∧
    (stepKeyboard [] ⟨0, 2, 0⟩ 0.25 k0 (1 / 60) 0 s8).state.pos =
      posAfter k0 (min (1 / 60 : ℝ) (1 / 60)) s8.pos s8.vel ∧
    (stepKeyboard [] ⟨0, 2, 0⟩ 0.25 k0 (1 / 60) 0 s8).state.vel =
      velAfter k0 (min (1 / 60 : ℝ) (1 / 60)) s8.vel := by
  have hOOB : ¬ isOOB (posAfter k0 (min (1 / 60 : ℝ) (1 / 60)) s8.pos s8.vel) := by
    norm_num [isOOB, posAfter, velAfter, applyInput, applyGravity, integrate,
      inputVec, vadd, smul, lengthSq, dot, vzero, s8, k0, gravity, speed,
      terrainSize, resetThreshold, min_self]
  have hnc : ∀ gi, getGroundInfo (posAfter k0 (min (1 / 60 : ℝ) (1 / 60)) s8.pos s8.vel).x
      (posAfter k0 (min (1 / 60 : ℝ) (1 / 60)) s8.pos s8.vel).z ([] : List Face) = some gi →
        gi.y + 0.25 < (posAfter k0 (min (1 / 60 : ℝ) (1 / 60)) s8.pos s8.vel).y := by
    intro gi h
    exact absurd h (by simp [getGroundInfo])
  exact C8_no_contact_throttle [] ⟨0, 2, 0⟩ 0.25 k0 (1 / 60) 0 s8 hOOB hnc

/-- C8 counterexample to the literal claim: in a no-contact step taken 0 ms
after the last notification, no clear notification is emitted and the stored
contact vectors keep their stale non-zero values — they are not zeroed. -/
theorem C8_counterexample :
    (stepKeyboard [] ⟨0, 2, 0⟩ 0.25 k0 (1 / 60) 0 s8).emitted = none ∧
    (stepKeyboard [] ⟨0, 2, 0⟩ 0.25 k0 (1 / 60) 0 s8).state.incomingRef = ⟨5, 0, 0⟩ ∧
    (⟨5, 0, 0⟩ : Vec3) ≠ vzero := by
  refine ⟨?_, ?_, ?_⟩
  · norm_num [stepKeyboard, posAfter, velAfter, applyInput, applyGravity,
      integrate, inputVec, isOOB, getGroundInfo, noContactResult, vadd, smul,
      lengthSq, dot, vzero, s8, k0, gravity, speed, terrainSize,
      resetThreshold, min_self]
  · norm_num [stepKeyboard, posAfter, velAfter, applyInput, applyGravity,
      integrate, inputVec, isOOB, getGroundInfo, noContactResult, vadd, smul,
      lengthSq, dot, vzero, s8, k0, gravity, speed, terrainSize,
      resetThreshold, min_self]
  · norm_num [vzero, Vec3.mk.injEq]

/-! ### Legacy launch-mode bounce (claim C9) -/

lemma legacyScan_cons_skip (radius : ℝ) (p v : Vec3) (f : Face) (rest : List Face)
    (h : ¬ trigger radius p v f) :
    legacyScan radius p v (f :: rest) = legacyScan radius p v rest := by
  simp only [legacyScan]
  by_cases h1 : dot v f.normal < 0
  · rw [if_neg (not_not_intro h1)]
    by_cases h2 : dot f.normal (vsub p f.a) > radius
    · rw [if_pos h2]
    · have h3 : ¬ pointInTriangle
          (vsub p (smul (dot f.normal (vsub p f.a)) f.normal)) f.a f.b f.c :=
        fun hp => h ⟨h1, not_lt.mp h2, hp⟩
      rw [if_neg h2, if_pos h3]
  · rw [if_pos h1]

lemma legacyScan_cons_hit (radius : ℝ) (p v : Vec3) (f : Face) (rest : List Face)
    (h : trigger radius p v f) :
    legacyScan radius p v (f :: rest) =
      (if radius - dot f.normal (vsub p f.a) > 0 then
          vadd p (smul (radius - dot f.normal (vsub p f.a) + 1e-3) f.normal)
        else p,
       reflect v f.normal, some f.id) := by
  obtain ⟨h1, h2, h3⟩ := h
  simp only [legacyScan]
  rw [if_neg (not_not_intro h1), if_neg (not_lt.mpr h2), if_neg (not_not_intro h3)]

lemma legacyScan_append_skip (radius : ℝ) (p v : Vec3) (pre rest : List Face)
    (h : ∀ g ∈ pre, ¬ trigger radius p v g) :
    legacyScan radius p v (pre ++ rest) = legacyScan radius p v rest := by
  induction pre with
  | nil => rfl
  | cons g pre ih =>
    rw [List.cons_append, legacyScan_cons_skip radius p v g _ (h g (by simp))]
    exact ih fun g1 hg1 => h g1 (List.mem_cons_of_mem g hg1)

/-- C9 (amended): in legacy launch mode, provided the squared speed is at
least 0.01 (the scan's speed gate) and there are at most 100 faces (so the
centroid pre-filter is not applied), the first face in iteration order
satisfying the three trigger conditions is resolved as exactly one bounce:
the body is pushed out along the normal by the penetration depth plus 1e-3
whenever it penetrates, and the velocity becomes the full elastic reflection
about that face's normal. -/
theorem C9_legacy_first_bounce (radius : ℝ) (p v : Vec3) (pre post : List Face)
    (f : Face) (hspeed : ¬ lengthSq v < 0.01)
    (hlen : (pre ++ f :: post).length ≤ 100)
    (hpre : ∀ g ∈ pre, ¬ trigger radius p v g) (hf : trigger radius p v f) :
    legacyCollide radius p v (pre ++ f :: post) =
      (if radius - dot f.normal (vsub p f.a) > 0 then
          vadd p (smul (radius - dot f.normal (vsub p f.a) + 1e-3) f.normal)
        else p,
       reflect v f.normal, some f.id) := by
  simp only [legacyCollide]
  rw [if_neg hspeed, if_neg (not_lt.mpr hlen)]
  rw [legacyScan_append_skip radius p v pre _ hpre]
  exact legacyScan_cons_hit radius p v f post hf

/-- Witness for C9 (amended): a concrete bounce off `wFace` with penetration
0.05 — the body is pushed to height 0.251 and the velocity is reflected. -/
theorem C9_witness :
    trigger 0.25 ⟨0, 0.2, 0⟩ ⟨0, -1, 0⟩ wFace ∧
    legacyCollide 0.25 ⟨0, 0.2, 0⟩ ⟨0, -1, 0⟩ [wFace] =
      (⟨0, 0.251, 0⟩, ⟨0, 1, 0⟩, some 0) := by
  have ht : trigger 0.25 ⟨0, 0.2, 0⟩ ⟨0, -1, 0⟩ wFace := by
    norm_num [trigger, wFace, dot, vsub, smul, pointInTriangle]
  refine ⟨ht, ?_⟩
  have h := C9_legacy_first_bounce 0.25 ⟨0, 0.2, 0⟩ ⟨0, -1, 0⟩ [] [] wFace
    (by norm_num [lengthSq, dot]) (by norm_num) (by simp) ht
  rw [List.nil_append] at h
  rw [h]
  norm_num [wFace, dot, vsub, vadd, smul, reflect, normalize, length, lengthSq,
    Real.sqrt_one, Vec3.mk.injEq, Prod.ext_iff]

/-- C9 counterexample to the literal claim: with a slow approach
(squared speed 0.0025 < 0.01) a face satisfies all three trigger conditions,
yet the scan's speed gate returns the state unchanged — no push-out and no
reflection happen. -/
theorem C9_counterexample :
    trigger 0.25 ⟨0, 0.2, 0⟩ ⟨0, -0.05, 0⟩ wFace ∧
    legacyCollide 0.25 ⟨0, 0.2, 0⟩ ⟨0, -0.05, 0⟩ [wFace] =
      (⟨0, 0.2, 0⟩, ⟨0, -0.05, 0⟩, none) ∧
    reflect ⟨0, -0.05, 0⟩ wFace.normal ≠ ⟨0, -0.05, 0⟩ := by
  refine ⟨?_, ?_, ?_⟩
  · norm_num [trigger, wFace, dot, vsub, smul, pointInTriangle]
  · norm_num [legacyCollide, lengthSq, dot]
  · norm_num [reflect, normalize, length, lengthSq, dot, wFace, vsub, smul,
      Real.sqrt_one, Vec3.mk.injEq]

/-! ### Terrain generator properties (claims C4, C5, C6) -/

/-- C4: regenerating the terrain with the same profile and parameters yields
the identical face list — the same vertex positions, normals, centroids and
ids — because every vertex and every height sample, including the rough
profile's pseudo-random perturbation, is a pure function of the grid
indices. -/
theorem C4_terrain_determinism (size : ℝ) (divisions : ℤ) (height : ℝ)
    (t : TerrainType) :
    buildTerrainFaces size divisions height t = buildTerrainFaces size divisions height t ∧
    (∀ i j : ℕ, vert size divisions height t i j = vert size divisions height t i j) ∧
    ∀ x y : ℝ, pseudoRandom x y = pseudoRandom x y :=
  ⟨rfl, fun _ _ => rfl, fun _ _ => rfl⟩

lemma normalize_of_ypos {w : Vec3} (h : 0 < w.y) :
    length (normalize w) = 1 ∧ 0 < (normalize w).y := by
  have hS : 0 < lengthSq w := by
    simp only [lengthSq, dot]
    nlinarith [mul_self_nonneg w.x, mul_self_nonneg w.z, mul_pos h h]
  have hL : 0 < length w := Real.sqrt_pos.mpr hS
  have hLne : length w ≠ 0 := ne_of_gt hL
  constructor
  · simp only [normalize, if_neg hLne]
    have hsq : lengthSq (smul (1 / length w) w) = (1 / length w) ^ 2 * lengthSq w := by
      simp only [lengthSq, smul, dot]
      ring
    rw [length, hsq, Real.sqrt_mul (sq_nonneg _), Real.sqrt_sq (by positivity)]
    have hroot : Real.sqrt (lengthSq w) = length w := rfl
    rw [hroot, one_div_mul_cancel hLne]
  · simp only [normalize, if_neg hLne, smul]
    exact mul_pos (one_div_pos.mpr hL) h

/-- C5: for every positive size, positive division count, height scale and
profile, every generated face has a normal of unit length with strictly
positive vertical component. -/
theorem C5_unit_upward_normals (size : ℝ) (divisions : ℤ) (height : ℝ)
    (t : TerrainType) (hsize : 0 < size) (hdiv : 0 < divisions) :
    ∀ f ∈ buildTerrainFaces size divisions height t,
      length f.normal = 1 ∧ 0 < f.normal.y := by
  intro f hf
  have hstep : 0 < size / (divisions : ℝ) := div_pos hsize (by exact_mod_cast hdiv)
  simp only [buildTerrainFaces, List.mem_flatMap, List.mem_range,
    List.mem_cons, List.mem_singleton] at hf
  obtain ⟨i, hi, j, hj, hmem⟩ := hf
  have hy1 : (cross
      (vsub (vert size divisions height t i (j + 1)) (vert size divisions height t i j))
      (vsub (vert size divisions height t (i + 1) j) (vert size divisions height t i j))).y =
      size / (divisions : ℝ) * (size / (divisions : ℝ)) := by
    simp only [cross, vsub, vert]
    push_cast
    ring
  have hy2 : (cross
      (vsub (vert size divisions height t i (j + 1)) (vert size divisions height t (i + 1) j))
      (vsub (vert size divisions height t (i + 1) (j + 1)) (vert size divisions height t (i + 1) j))).y =
      size / (divisions : ℝ) * (size / (divisions : ℝ)) := by
    simp only [cross, vsub, vert]
    push_cast
    ring
  rcases hmem with rfl | rfl | h0
  · simp only [triangleNormal]
    exact normalize_of_ypos (by rw [hy1]; exact mul_pos hstep hstep)
  · simp only [triangleNormal]
    exact normalize_of_ypos (by rw [hy2]; exact mul_pos hstep hstep)
  · exact absurd h0 (List.not_mem_nil f)

/-- Witness for C5: the default parameters (size 10, 6 divisions, height
scale 2.5, rough profile) satisfy the hypotheses. -/
theorem C5_witness :
    (0 : ℝ) < 10 ∧ (0 : ℤ) < 6 ∧
    ∀ f ∈ buildTerrainFaces 10 6 2.5 TerrainType.rough,
      length f.normal = 1 ∧ 0 < f.normal.y :=
  ⟨by norm_num, by norm_num,
    C5_unit_upward_normals 10 6 2.5 TerrainType.rough (by norm_num) (by norm_num)⟩

/-- C6: contrary to the fail-fast claim, the generator called with a
non-positive division count returns normally with an empty face list — it
throws no error; evaluated at the failing inputs 0 and -3. -/
theorem C6_nonpositive_divisions_return_empty :
    buildTerrainFaces 10 0 2.5 TerrainType.rough = [] ∧
    buildTerrainFaces 10 (-3) 2.5 TerrainType.rough = [] := by
  constructor <;> rfl

end CDS
